import Mathlib

/-!
Verification of the oslo.version repository against its specification.

The repository contains two near-duplicate implementations of a version /
vendor-metadata resolver:
  * `src/oslo/version/version.py`  (property style, private `_`-fields)
  * `src/pbr/version.py`           (method style, public fields)

They are embedded shallowly below as namespaces `Oslo` and `Pbr`.  Process
state that the Python code reads implicitly (home directory, cwd, argv[0],
`os.path.exists`, `pkg_resources`, config-file contents, d2to1 / setup.cfg
metadata) is gathered in a `World` record; a `VersionInfo` instance is a
`VIState` record; each accessor is a function `World → VIState →
(result, new state)`, where a `none` result models a raised Python exception.

Modelling conventions (fixed once, used throughout):
  * `os.path` functions are modelled on strings: `pathJoin` is the two-arg
    `os.path.join`, `expanduser` handles the `~` and `~/...` forms used by
    the code (the `~user` form is never produced by this code and is left
    untouched), `abspath` resolves relative paths against the cwd but does
    not re-normalise already-normalised input.
  * `RawConfigParser.get(section, option)` is modelled as a lookup in the
    world returning `Option String`, `none` meaning a raised
    NoSectionError/NoOptionError.  The calls that pass a third positional
    argument — `cfg.get('metadata', 'author', None)` in oslo's
    `_load_from_setup_cfg` and the three `cfg.get(section, key, current)`
    calls in pbr's `_load_from_cfg_file` — raise TypeError in every Python
    version (`RawConfigParser.get` takes no positional fallback: the
    parameter is keyword-only in Python 3 and absent in Python 2), so those
    methods are modelled as raising unconditionally, before any field
    assignment.
  * Python string truthiness for optional strings is `truthyStr`.
-/

/-- Python `str.split(sep)` for a one-character separator, accumulator
form: `acc` holds the current segment's characters in reverse. -/
def splitCharAux (sep : Char) : List Char → List Char → List String
  | [], acc => [String.mk acc.reverse]
  | c :: cs, acc =>
    if c == sep then String.mk acc.reverse :: splitCharAux sep cs []
    else splitCharAux sep cs (c :: acc)

/-- Python `s.split(sep)` for a one-character separator: always returns at
least one segment, and `"".split(sep) == [""]`. -/
def splitChar (sep : Char) (s : String) : List String :=
  splitCharAux sep s.data []

/-- Python `".".join(parts)`. -/
def joinDots : List String → String
  | [] => ""
  | [p] => p
  | p :: q :: ps => p ++ "." ++ joinDots (q :: ps)

/-- Test `listStarts pat cs`: the character list `cs` starts with `pat`. -/
def listStarts : List Char → List Char → Bool
  | [], _ => true
  | _ :: _, [] => false
  | c :: cs, d :: ds => c == d && listStarts cs ds

/-- Python `s.startswith(pat)`. -/
def strStartsWith (s pat : String) : Bool := listStarts pat.data s.data

/-- Python `s[n:]`. -/
def strDrop (s : String) (n : Nat) : String := String.mk (s.data.drop n)

/-- First character of a dot-segment is a decimal digit; `false` for the
empty segment.  Mirrors the test `part[0].isdigit()` where it succeeds. -/
def headIsDigit (p : String) : Bool :=
  match p.data with
  | [] => false
  | c :: _ => c.isDigit

/-- The loop body shared by `VersionInfo.version` (oslo, lines 240-247) and
`VersionInfo.version_string` (pbr, lines 233-240):
`for part in parts: if part[0].isdigit(): append else: break`.
`none` models the IndexError raised by `part[0]` on an empty segment. -/
def pyVersionParts : List String → Option (List String)
  | [] => some []
  | p :: ps =>
    match p.data with
    | [] => none
    | c :: _ =>
      if c.isDigit then (pyVersionParts ps).map (fun l => p :: l)
      else some []

/-- The short-version computation applied to a release string:
split on ".", run the digit loop, join with ".". -/
def version_of_release (r : String) : Option String :=
  (pyVersionParts (splitChar '.' r)).map joinDots

/-- Relation: `l₁` is an initial segment of `l₂`. -/
def initSeg (l₁ l₂ : List String) : Prop := ∃ t, l₁ ++ t = l₂

/-- Proper initial segment. -/
def strictInitSeg (l₁ l₂ : List String) : Prop := initSeg l₁ l₂ ∧ l₁ ≠ l₂

/-- Section name used when reading an override config file: the package
name with a leading "python-" stripped (both variants, identically). -/
def secName (pkg : String) : String :=
  if strStartsWith pkg "python-" then strDrop pkg 7 else pkg

/-- Python `os.path.isabs`: path begins with a slash. -/
def isAbs (p : String) : Bool :=
  match p.data with
  | [] => false
  | c :: _ => c == '/'

/-- Last character is a slash (used by `os.path.join`). -/
def lastIsSlash (p : String) : Bool :=
  match p.data.getLast? with
  | none => false
  | some c => c == '/'

/-- Strip trailing slashes, as `os.path.expanduser` does to the home
directory before concatenation. -/
def rstripSlashes (s : String) : String :=
  String.mk ((s.data.reverse.dropWhile (fun c => c == '/')).reverse)

/-- Two-argument `os.path.join`. -/
def pathJoin (a b : String) : String :=
  if isAbs b then b
  else if a = "" ∨ lastIsSlash a = true then a ++ b
  else a ++ "/" ++ b

/-- Python `os.path.expanduser` restricted to the inputs this code produces:
a path that is exactly "~" or starts with "~/" has the tilde replaced by
the home directory (with trailing slashes stripped; an empty result
becomes "/"); anything else is returned unchanged. -/
def expanduser (home p : String) : String :=
  match p.data with
  | '~' :: rest =>
    match rest with
    | [] =>
      let uh := rstripSlashes home
      if uh = "" then "/" else uh
    | c :: _ =>
      if c == '/' then
        let r := rstripSlashes home ++ String.mk rest
        if r = "" then "/" else r
      else p
  | _ => p

/-- Python `os.path.abspath` without re-normalisation: absolute paths are kept,
relative paths are joined onto the cwd. -/
def abspath (cwd p : String) : String :=
  if isAbs p then p else pathJoin cwd p

/-- Python `os.path.basename`: the part after the last slash. -/
def basename (p : String) : String := (splitChar '/' p).getLastD ""

/-- Python truthiness of an optional string (`if project:`). -/
def truthyStr : Option String → Bool
  | none => false
  | some s => !(s == "")

/-- The object returned by `pkg_resources.get_provider`: its `.version`
attribute and the "Author" / "Summary" fields of its PKG-INFO metadata
(`email` header lookup returns None for a missing field). -/
structure Provider where
  version : String
  author : Option String
  summary : Option String
deriving Repr, DecidableEq

/-- Ambient process state and external collaborators read by the code. -/
structure World where
  /-- `HOME`, read through `os.path.expanduser`. -/
  home : String
  /-- Current working directory, read through `os.path.abspath`. -/
  cwd : String
  /-- `sys.argv[0]`. -/
  argv0 : String
  /-- `os.path.exists`. -/
  pathExists : String → Bool
  /-- `pkg_resources.get_provider` for a package name; `none` models
  DistributionNotFound. -/
  providerOf : String → Option Provider
  /-- `pbr.packaging.get_version` fallback; `none` models its failure
  (ImportError / no metadata at all). -/
  fallbackVersion : String → Option String
  /-- RawConfigParser lookup over a list of config files (the list returned
  by `_find_config_files` is passed verbatim to `cfg.read`):
  files → section → key → value; `none` means the section/key is absent. -/
  cfgGet : List String → String → String → Option String
  /-- `d2to1.util.cfg_to_args()['author']`; `none` models a raised error. -/
  d2to1Author : Option String
  /-- `d2to1.util.cfg_to_args()['description']`. -/
  d2to1Description : Option String

namespace Oslo

/-- Function `_expand_path` (oslo lines 33-35). -/
def _expand_path (w : World) (p : String) : String :=
  abspath w.cwd (expanduser w.home p)

/-- Function `_get_config_dirs` (oslo lines 38-68). -/
def _get_config_dirs (w : World) (project : Option String) : List String :=
  if truthyStr project then
    [ _expand_path w (pathJoin "~" ("." ++ project.getD "")),
      _expand_path w "~",
      pathJoin "/etc" (project.getD ""),
      "/etc" ]
  else
    [ _expand_path w "~", "/etc" ]

/-- Function `_search_dirs` (oslo lines 71-85): first directory containing
`basename ++ extension`, else `none`. -/
def _search_dirs (w : World) (dirs : List String) (bname extension : String) :
    Option String :=
  match dirs with
  | [] => none
  | d :: rest =>
    let path := pathJoin d (bname ++ extension)
    if w.pathExists path then some path
    else _search_dirs w rest bname extension

/-- Function `_find_config_files` (oslo lines 88-123). -/
def _find_config_files (w : World) (project prog : Option String)
    (extension : String) : List String :=
  let prog := match prog with
    | none => basename w.argv0
    | some q => q
  let cfg_dirs := _get_config_dirs w project
  ((if truthyStr project then
      [_search_dirs w cfg_dirs (project.getD "") extension]
    else []) ++
   [_search_dirs w cfg_dirs prog extension]).filterMap id

/-- The instance state of oslo's `VersionInfo` (fields set in `__init__`,
lines 128-141). -/
structure VIState where
  package : String
  _release : Option String
  _version : Option String
  _vendor : Option String
  _product : Option String
  _suffix : Option String
  _cached_version : Option String
  _provider : Option Provider
  _loaded : Bool
deriving Repr, DecidableEq

/-- Method `VersionInfo.__init__` (oslo lines 128-141). -/
def mkVersionInfo (package : String) : VIState :=
  ⟨package, none, none, none, none, none, none, none, false⟩

/-- Method `VersionInfo._get_provider` (oslo lines 198-205). -/
def _get_provider (w : World) (s : VIState) : Option Provider × VIState :=
  match s._provider with
  | some p => (some p, s)
  | none =>
    match w.providerOf s.package with
    | some p => (some p, { s with _provider := some p })
    | none => (none, s)

/-- Method `VersionInfo._load_from_setup_cfg` (oslo lines 151-156):
`cfg.get('metadata', 'author', None)` passes a third positional argument,
which `RawConfigParser.get` rejects in every Python version (the fallback
parameter is keyword-only in Python 3 and absent in Python 2), so this
method always raises TypeError before assigning any field. -/
def _load_from_setup_cfg (_w : World) (s : VIState) : Option Unit × VIState :=
  (none, s)

/-- Method `VersionInfo._load_from_pkg_info` (oslo lines 158-162). -/
def _load_from_pkg_info (prov : Provider) (s : VIState) : VIState :=
  { s with _vendor := prov.author, _product := prov.summary }

/-- Method `VersionInfo._load_from_cfg_file` (oslo lines 164-174).  The three
two-argument `cfg.get` calls run in order; a missing section/key raises
(`none` result), leaving the assignments already made in place. -/
def _load_from_cfg_file (w : World) (cfgfile : List String) (s : VIState) :
    Option Unit × VIState :=
  let project_name :=
    if strStartsWith s.package "python-" then strDrop s.package 7
    else s.package
  match w.cfgGet cfgfile project_name "vendor" with
  | none => (none, s)
  | some v =>
    let s := { s with _vendor := some v }
    match w.cfgGet cfgfile project_name "product" with
    | none => (none, s)
    | some pr =>
      let s := { s with _product := some pr }
      match w.cfgGet cfgfile project_name "package" with
      | none => (none, s)
      | some sx => (some (), { s with _suffix := some sx })

/-- Method `VersionInfo._load_vendor_strings` (oslo lines 176-196).  An
exception from either loader (so, always, when no provider is found)
propagates and leaves `_loaded` unset. -/
def _load_vendor_strings (w : World) (s : VIState) : Option Unit × VIState :=
  if s._loaded then (some (), s)
  else
    let gp := _get_provider w s
    match (match gp.1 with
           | some prov => (some (), _load_from_pkg_info prov gp.2)
           | none => _load_from_setup_cfg w gp.2) with
    | (none, s2) => (none, s2)
    | (some _, s2) =>
      let cfgfile := _find_config_files w (some "release") none ".conf"
      match (if cfgfile = [] then (some (), s2)
             else _load_from_cfg_file w cfgfile s2) with
      | (none, s3) => (none, s3)
      | (some _, s3) => (some (), { s3 with _loaded := true })

/-- Method `VersionInfo._get_version_from_pkg_resources` (oslo lines 207-225). -/
def _get_version_from_pkg_resources (w : World) (s : VIState) :
    Option String × VIState :=
  match _get_provider w s with
  | (some prov, s1) => (some prov.version, s1)
  | (none, s1) => (w.fallbackVersion s1.package, s1)

/-- The `release` property (oslo lines 227-235). -/
def release (w : World) (s : VIState) : Option String × VIState :=
  match s._release with
  | some r => (some r, s)
  | none =>
    match _get_version_from_pkg_resources w s with
    | (some r, s1) => (some r, { s1 with _release := some r })
    | (none, s1) => (none, s1)

/-- The `version` property (oslo lines 237-249). -/
def version (w : World) (s : VIState) : Option String × VIState :=
  match s._version with
  | some v => (some v, s)
  | none =>
    match release w s with
    | (none, s1) => (none, s1)
    | (some r, s1) =>
      match pyVersionParts (splitChar '.' r) with
      | none => (none, s1)
      | some ps =>
        (some (joinDots ps), { s1 with _version := some (joinDots ps) })

/-- The `vendor` property (oslo lines 251-254). -/
def vendor (w : World) (s : VIState) : Option (Option String) × VIState :=
  match _load_vendor_strings w s with
  | (none, s1) => (none, s1)
  | (some _, s1) => (some s1._vendor, s1)

/-- The `product` property (oslo lines 256-259). -/
def product (w : World) (s : VIState) : Option (Option String) × VIState :=
  match _load_vendor_strings w s with
  | (none, s1) => (none, s1)
  | (some _, s1) => (some s1._product, s1)

/-- The `suffix` property (oslo lines 261-264). -/
def suffix (w : World) (s : VIState) : Option (Option String) × VIState :=
  match _load_vendor_strings w s with
  | (none, s1) => (none, s1)
  | (some _, s1) => (some s1._suffix, s1)

end Oslo

namespace Pbr

/-- Function `_expand_path` (pbr lines 31-33). -/
def _expand_path (w : World) (p : String) : String :=
  abspath w.cwd (expanduser w.home p)

/-- Function `_get_config_dirs` (pbr lines 36-66). -/
def _get_config_dirs (w : World) (project : Option String) : List String :=
  if truthyStr project then
    [ _expand_path w (pathJoin "~" ("." ++ project.getD "")),
      _expand_path w "~",
      pathJoin "/etc" (project.getD ""),
      "/etc" ]
  else
    [ _expand_path w "~", "/etc" ]

/-- Function `_search_dirs` (pbr lines 69-83). -/
def _search_dirs (w : World) (dirs : List String) (bname extension : String) :
    Option String :=
  match dirs with
  | [] => none
  | d :: rest =>
    let path := pathJoin d (bname ++ extension)
    if w.pathExists path then some path
    else _search_dirs w rest bname extension

/-- Function `_find_config_files` (pbr lines 86-121). -/
def _find_config_files (w : World) (project prog : Option String)
    (extension : String) : List String :=
  let prog := match prog with
    | none => basename w.argv0
    | some q => q
  let cfg_dirs := _get_config_dirs w project
  ((if truthyStr project then
      [_search_dirs w cfg_dirs (project.getD "") extension]
    else []) ++
   [_search_dirs w cfg_dirs prog extension]).filterMap id

/-- The instance state of pbr's `VersionInfo` (public fields, `__init__`
lines 126-139). -/
structure VIState where
  package : String
  release : Option String
  version : Option String
  vendor : Option String
  product : Option String
  suffix : Option String
  _cached_version : Option String
  _provider : Option Provider
  _loaded : Bool
deriving Repr, DecidableEq

/-- Method `VersionInfo.__init__` (pbr lines 126-139). -/
def mkVersionInfo (package : String) : VIState :=
  ⟨package, none, none, none, none, none, none, none, false⟩

/-- Method `VersionInfo._get_provider` (pbr lines 199-206). -/
def _get_provider (w : World) (s : VIState) : Option Provider × VIState :=
  match s._provider with
  | some p => (some p, s)
  | none =>
    match w.providerOf s.package with
    | some p => (some p, { s with _provider := some p })
    | none => (none, s)

/-- Method `VersionInfo._load_from_setup_cfg` (pbr lines 149-153):
`d2to1.util.cfg_to_args()` dictionary access; a missing entry raises. -/
def _load_from_setup_cfg (w : World) (s : VIState) : Option Unit × VIState :=
  match w.d2to1Author with
  | none => (none, s)
  | some a =>
    let s := { s with vendor := some a }
    match w.d2to1Description with
    | none => (none, s)
    | some d => (some (), { s with product := some d })

/-- Method `VersionInfo._load_from_pkg_info` (pbr lines 155-159). -/
def _load_from_pkg_info (prov : Provider) (s : VIState) : VIState :=
  { s with vendor := prov.author, product := prov.summary }

/-- Method `VersionInfo._load_from_cfg_file` (pbr lines 161-175).  The
`try` covers only the parser construction and `cfg.read`; the first
`cfg.get(project_name, "vendor", self.vendor)` call then passes a third
positional argument, which `RawConfigParser.get` rejects in every Python
version, so on any file list that `read` accepts the method raises
TypeError before assigning any field.  (The swallowed parse-error branch
also assigns nothing and is not modelled separately, as no claim depends
on it.) -/
def _load_from_cfg_file (_w : World) (_cfgfile : List String)
    (s : VIState) : Option Unit × VIState :=
  (none, s)

/-- Method `VersionInfo._load_vendor_strings` (pbr lines 177-197).  An
exception from either loader (so, always, when an override config file is
found) propagates and leaves `_loaded` unset. -/
def _load_vendor_strings (w : World) (s : VIState) : Option Unit × VIState :=
  if s._loaded then (some (), s)
  else
    let gp := _get_provider w s
    match (match gp.1 with
           | some prov => (some (), _load_from_pkg_info prov gp.2)
           | none => _load_from_setup_cfg w gp.2) with
    | (none, s2) => (none, s2)
    | (some _, s2) =>
      let cfgfile := _find_config_files w (some "release") none ".conf"
      match (if cfgfile = [] then (some (), s2)
             else _load_from_cfg_file w cfgfile s2) with
      | (none, s3) => (none, s3)
      | (some _, s3) => (some (), { s3 with _loaded := true })

/-- Method `VersionInfo._get_version_from_pkg_resources` (pbr lines 208-220). -/
def _get_version_from_pkg_resources (w : World) (s : VIState) :
    Option String × VIState :=
  match _get_provider w s with
  | (some prov, s1) => (some prov.version, s1)
  | (none, s1) => (w.fallbackVersion s1.package, s1)

/-- Method `VersionInfo.release_string` (pbr lines 222-229). -/
def release_string (w : World) (s : VIState) : Option String × VIState :=
  match s.release with
  | some r => (some r, s)
  | none =>
    match _get_version_from_pkg_resources w s with
    | (some r, s1) => (some r, { s1 with release := some r })
    | (none, s1) => (none, s1)

/-- Method `VersionInfo.version_string` (pbr lines 231-242). -/
def version_string (w : World) (s : VIState) : Option String × VIState :=
  match s.version with
  | some v => (some v, s)
  | none =>
    match release_string w s with
    | (none, s1) => (none, s1)
    | (some r, s1) =>
      match pyVersionParts (splitChar '.' r) with
      | none => (none, s1)
      | some ps =>
        (some (joinDots ps), { s1 with version := some (joinDots ps) })

/-- Method `VersionInfo.vendor_string` (pbr lines 244-246). -/
def vendor_string (w : World) (s : VIState) :
    Option (Option String) × VIState :=
  match _load_vendor_strings w s with
  | (none, s1) => (none, s1)
  | (some _, s1) => (some s1.vendor, s1)

/-- Method `VersionInfo.product_string` (pbr lines 248-250). -/
def product_string (w : World) (s : VIState) :
    Option (Option String) × VIState :=
  match _load_vendor_strings w s with
  | (none, s1) => (none, s1)
  | (some _, s1) => (some s1.product, s1)

/-- Method `VersionInfo.suffix_string` (pbr lines 252-254). -/
def suffix_string (w : World) (s : VIState) :
    Option (Option String) × VIState :=
  match _load_vendor_strings w s with
  | (none, s1) => (none, s1)
  | (some _, s1) => (some s1.suffix, s1)

/-- Method `VersionInfo.cached_version_string` (pbr lines 261-271): note the
`if not self._cached_version:` truthiness test, which treats both `None`
and the empty string as "not yet cached". -/
def cached_version_string (w : World) (pre : String) (s : VIState) :
    Option String × VIState :=
  if s._cached_version.getD "" = "" then
    match version_string w s with
    | (none, s1) => (none, s1)
    | (some v, s1) =>
      (some (pre ++ v), { s1 with _cached_version := some (pre ++ v) })
  else (some (s._cached_version.getD ""), s)

end Pbr

/-! Concrete worlds and states used for examples and witnesses. -/

/-- A provider with a plain numeric version. -/
def provA : Provider :=
  { version := "1.2.3", author := some "AuthA", summary := some "SumA" }

/-- A provider whose version string has no digit-leading segment. -/
def provX : Provider :=
  { version := "x", author := none, summary := none }

/-- A quiet baseline world: provider `provA` for every package, nothing on
the filesystem. -/
def W0 : World :=
  { home := "/root", cwd := "/", argv0 := "foo",
    pathExists := fun _ => false,
    providerOf := fun _ => some provA,
    fallbackVersion := fun _ => none,
    cfgGet := fun _ _ _ => none,
    d2to1Author := some "DA", d2to1Description := some "DD" }

/-- A world in which every underlying file and collaborator answer has
changed relative to `W0`. -/
def W2 : World :=
  { W0 with pathExists := fun _ => true,
            providerOf := fun _ =>
              some { version := "9.9", author := some "Z", summary := none },
            fallbackVersion := fun _ => some "8.8",
            cfgGet := fun _ _ _ => some "zz" }

/-- A world whose provider reports the non-numeric release "x", so that the
short version is the empty string. -/
def W3 : World :=
  { W0 with providerOf := fun _ => some provX }

/-- World for the config-file discovery example: argv[0] = "foo" and an
existence predicate reporting exactly /root/.blaa/blaa.conf and
/etc/foo.conf as existing. -/
def W5 : World :=
  { W0 with pathExists := fun p =>
      p == "/root/.blaa/blaa.conf" || p == "/etc/foo.conf" }

/-- World for the override-file example: no provider (so the oslo variant
falls back to its broken `_load_from_setup_cfg`), d2to1 metadata
available, an override file /etc/release.conf whose section [myfoo] holds
vendor=bigco, product=product123, package=mysuffix. -/
def WC7 : World :=
  { home := "/root", cwd := "/", argv0 := "prog",
    pathExists := fun p => p == "/etc/release.conf",
    providerOf := fun _ => none,
    fallbackVersion := fun _ => none,
    cfgGet := fun files sec key =>
      if files == ["/etc/release.conf"] && sec == "myfoo" then
        if key == "vendor" then some "bigco"
        else if key == "product" then some "product123"
        else if key == "package" then some "mysuffix"
        else none
      else none,
    d2to1Author := some "d2a", d2to1Description := some "d2d" }

/-- Provider used to stub metadata loading in the override example. -/
def provM : Provider :=
  { version := "1.0", author := some "metaAuthor",
    summary := some "metaSummary" }

/-- Same scenario as `WC7` but with a provider present, so metadata
loading succeeds benignly through `_load_from_pkg_info` — the stub shape
used by the repository's own `test_vendor`. -/
def WC7p : World :=
  { WC7 with providerOf := fun _ => some provM }

/-- World for the missing-override-key example: same as `WC7` but the
section [myfoo] holds only product=product123. -/
def WC8 : World :=
  { WC7 with cfgGet := fun files sec key =>
      if files == ["/etc/release.conf"] && sec == "myfoo" && key == "product"
      then some "product123" else none }

/-- The state of a fresh oslo instance for package "pkg" after one
successful `release` access under `W0`. -/
def S1 : Oslo.VIState :=
  { package := "pkg", _release := some "1.2.3", _version := none,
    _vendor := none, _product := none, _suffix := none,
    _cached_version := none, _provider := some provA, _loaded := false }

/-- The state of a fresh pbr instance for package "p" after one successful
`cached_version_string("v")` call under `W0`. -/
def S3 : Pbr.VIState :=
  { package := "p", release := some "1.2.3", version := some "1.2.3",
    vendor := none, product := none, suffix := none,
    _cached_version := some "v1.2.3", _provider := some provA,
    _loaded := false }

/-- The state produced by oslo's `_load_from_cfg_file` in the override
example of C7. -/
def SC7 : Oslo.VIState :=
  { package := "myfoo", _release := none, _version := none,
    _vendor := some "bigco", _product := some "product123",
    _suffix := some "mysuffix", _cached_version := none,
    _provider := none, _loaded := false }

/-! ## Helper lemmas -/

lemma str_ext {a b : String} (h : a.data = b.data) : a = b := by
  cases a; cases b; exact congrArg String.mk h

lemma str_data_append (a b : String) : (a ++ b).data = a.data ++ b.data := by
  cases a; cases b; rfl

lemma str_ne_empty_iff {a : String} : a ≠ "" ↔ a.data ≠ [] := by
  constructor
  · intro h hd
    exact h (str_ext (by simpa using hd))
  · intro h hd
    exact h (by simp [hd])

lemma pyVersionParts_eq :
    ∀ segs ps, pyVersionParts segs = some ps →
      ps = segs.takeWhile headIsDigit := by
  intro segs
  induction segs with
  | nil => intro ps h; simpa [pyVersionParts] using h.symm
  | cons p rest ih =>
    intro ps h
    rcases hd : p.data with _ | ⟨c, cs⟩
    · simp [pyVersionParts, hd] at h
    · by_cases hc : c.isDigit
      · rw [show pyVersionParts (p :: rest)
              = (pyVersionParts rest).map (fun l => p :: l) from by
            simp [pyVersionParts, hd, hc]] at h
        rw [Option.map_eq_some'] at h
        obtain ⟨l, hl, rfl⟩ := h
        simp [List.takeWhile_cons, headIsDigit, hd, hc, ih l hl]
      · rw [show pyVersionParts (p :: rest) = some [] from by
            simp [pyVersionParts, hd, hc]] at h
        rw [Option.some_inj] at h
        simp [← h, List.takeWhile_cons, headIsDigit, hd, hc]

lemma mem_takeWhile_digit (f : String → Bool) :
    ∀ (l : List String) p, p ∈ l.takeWhile f → f p = true := by
  intro l
  induction l with
  | nil => simp
  | cons a rest ih =>
    intro p hp
    by_cases ha : f a
    · rw [List.takeWhile_cons, if_pos ha, List.mem_cons] at hp
      rcases hp with hp | hp
      · exact hp ▸ ha
      · exact ih p hp
    · rw [List.takeWhile_cons, if_neg ha] at hp
      simp at hp

lemma takeWhile_initSeg (f : String → Bool) (l : List String) :
    initSeg (l.takeWhile f) l :=
  ⟨l.dropWhile f, List.takeWhile_append_dropWhile f l⟩

lemma takeWhile_longest (f : String → Bool) :
    ∀ (q l : List String), initSeg q l → (∀ p ∈ q, f p = true) →
      q.length ≤ (l.takeWhile f).length := by
  intro q
  induction q with
  | nil => simp
  | cons a q' ih =>
    intro l hseg hall
    obtain ⟨t, ht⟩ := hseg
    subst ht
    have ha : f a = true := hall a (by simp)
    rw [List.cons_append, List.takeWhile_cons, if_pos ha]
    have := ih (q' ++ t) ⟨t, rfl⟩ (fun p hp => hall p (by simp [hp]))
    simpa using this

lemma pyVersionParts_none_iff :
    ∀ segs, pyVersionParts segs = none ↔
      (segs.dropWhile headIsDigit).head? = some "" := by
  intro segs
  induction segs with
  | nil => simp [pyVersionParts]
  | cons p rest ih =>
    rcases hd : p.data with _ | ⟨c, cs⟩
    · have hp : p = "" := str_ext (by simpa using hd)
      have hdig : headIsDigit p = false := by simp [headIsDigit, hd]
      have h0 : headIsDigit "" = false := rfl
      simp [pyVersionParts, hd, List.dropWhile_cons, hdig, hp, h0]
    · by_cases hc : c.isDigit
      · have hdig : headIsDigit p = true := by simp [headIsDigit, hd, hc]
        simp [pyVersionParts, hd, hc, List.dropWhile_cons, hdig, ih,
          Option.map_eq_none']
      · have hdig : headIsDigit p = false := by simp [headIsDigit, hd, hc]
        have hp : p ≠ "" := by
          rw [str_ne_empty_iff, hd]
          simp
        simp only [pyVersionParts, hd, hc, Bool.false_eq_true, if_false,
          List.dropWhile_cons, hdig, List.head?_cons, reduceCtorEq,
          false_iff, Option.some_inj]
        exact fun he => hp he

lemma head_dropWhile_mem (f : String → Bool) :
    ∀ (l : List String) a, (l.dropWhile f).head? = some a → a ∈ l := by
  intro l
  induction l with
  | nil => simp
  | cons p rest ih =>
    intro a ha
    by_cases hp : f p
    · rw [List.dropWhile_cons, if_pos hp] at ha
      exact List.mem_cons_of_mem _ (ih a ha)
    · rw [List.dropWhile_cons, if_neg hp] at ha
      simp only [List.head?_cons, Option.some_inj] at ha
      simp [ha]

lemma oslo_version_wiring (w : World) (s : Oslo.VIState)
    (h : s._version = none) :
    (Oslo.version w s).1 = ((Oslo.release w s).1.bind version_of_release) := by
  unfold Oslo.version
  rw [h]
  rcases hrel : Oslo.release w s with ⟨r?, s1⟩
  cases r? with
  | none => simp
  | some r =>
    simp only [version_of_release, Option.bind_some]
    cases hp : pyVersionParts (splitChar '.' r) <;> simp [hp]

lemma pbr_version_wiring (w : World) (s : Pbr.VIState)
    (h : s.version = none) :
    (Pbr.version_string w s).1 =
      ((Pbr.release_string w s).1.bind version_of_release) := by
  unfold Pbr.version_string
  rw [h]
  rcases hrel : Pbr.release_string w s with ⟨r?, s1⟩
  cases r? with
  | none => simp
  | some r =>
    simp only [version_of_release, Option.bind_some]
    cases hp : pyVersionParts (splitChar '.' r) <;> simp [hp]

/-! ## Claims about the short-version computation -/

/-- C1: for every release string on which the version accessor returns a
value, that value is the longest dot-joined initial segment of the
release's dot-separated segments whose members all start with a decimal
digit; the stated examples hold, the result is empty when the first
segment does not start with a digit, and both variants' accessors compute
exactly this function of the resolved release string. -/
theorem version_is_longest_digit_run :
    (∀ r v, version_of_release r = some v →
      initSeg ((splitChar '.' r).takeWhile headIsDigit) (splitChar '.' r) ∧
      (∀ p ∈ (splitChar '.' r).takeWhile headIsDigit, headIsDigit p = true) ∧
      (∀ q, initSeg q (splitChar '.' r) → (∀ p ∈ q, headIsDigit p = true) →
        q.length ≤ ((splitChar '.' r).takeWhile headIsDigit).length) ∧
      v = joinDots ((splitChar '.' r).takeWhile headIsDigit)) ∧
    version_of_release "5.5.5.5" = some "5.5.5.5" ∧
    version_of_release "0.5.21.28.gae25b56" = some "0.5.21.28" ∧
    (∀ r v, version_of_release r = some v →
      headIsDigit ((splitChar '.' r).headD "") = false → v = "") ∧
    (∀ w s, s._version = none →
      (Oslo.version w s).1 = ((Oslo.release w s).1.bind version_of_release)) ∧
    (∀ w s, s.version = none →
      (Pbr.version_string w s).1 =
        ((Pbr.release_string w s).1.bind version_of_release)) := by
  refine ⟨?_, by decide, by decide, ?_, oslo_version_wiring,
    pbr_version_wiring⟩
  · intro r v h
    simp only [version_of_release, Option.map_eq_some'] at h
    obtain ⟨ps, hps, rfl⟩ := h
    have he := pyVersionParts_eq _ _ hps
    exact ⟨takeWhile_initSeg _ _, mem_takeWhile_digit _ _,
      fun q hq hall => takeWhile_longest _ q _ hq hall, by rw [he]⟩
  · intro r v h hhead
    simp only [version_of_release, Option.map_eq_some'] at h
    obtain ⟨ps, hps, rfl⟩ := h
    have he := pyVersionParts_eq _ _ hps
    rcases hsegs : splitChar '.' r with _ | ⟨p0, rest⟩
    · simp [he, hsegs, joinDots]
    · rw [hsegs] at hhead
      simp only [List.headD_cons] at hhead
      simp [he, hsegs, List.takeWhile_cons, hhead, joinDots]

/-- Witness for C1 at the release string "0.5.21.28.gae25b56". -/
theorem version_is_longest_digit_run_witness :
    initSeg ((splitChar '.' "0.5.21.28.gae25b56").takeWhile headIsDigit)
        (splitChar '.' "0.5.21.28.gae25b56") ∧
    (∀ p ∈ (splitChar '.' "0.5.21.28.gae25b56").takeWhile headIsDigit,
        headIsDigit p = true) ∧
    (∀ q, initSeg q (splitChar '.' "0.5.21.28.gae25b56") →
        (∀ p ∈ q, headIsDigit p = true) →
        q.length ≤
          ((splitChar '.' "0.5.21.28.gae25b56").takeWhile headIsDigit).length) ∧
    "0.5.21.28" = joinDots
        ((splitChar '.' "0.5.21.28.gae25b56").takeWhile headIsDigit) :=
  version_is_longest_digit_run.1 "0.5.21.28.gae25b56" "0.5.21.28" (by decide)

/-- C4 counterexample: for the release "5" the computed version's segment
run is the whole segment list, so it is not a strict initial segment. -/
theorem version_strict_initseg_cex :
    version_of_release "5" = some "5" ∧
    (splitChar '.' "5").takeWhile headIsDigit = splitChar '.' "5" ∧
    ¬ strictInitSeg ((splitChar '.' "5").takeWhile headIsDigit)
        (splitChar '.' "5") :=
  ⟨by decide, by decide, fun h => h.2 (by decide)⟩

/-- C4 (amended): whenever the version accessor returns a value, its
segment run is an initial segment of the release's dot-segments, truncated
at the first segment not starting with a digit; the segment is strict
whenever some segment does not start with a digit (but not in general),
and the value is empty when the first segment is non-numeric. -/
theorem version_initseg_of_release :
    ∀ r v, version_of_release r = some v →
      v = joinDots ((splitChar '.' r).takeWhile headIsDigit) ∧
      initSeg ((splitChar '.' r).takeWhile headIsDigit) (splitChar '.' r) ∧
      ((∃ p ∈ splitChar '.' r, headIsDigit p = false) →
        strictInitSeg ((splitChar '.' r).takeWhile headIsDigit)
          (splitChar '.' r)) ∧
      (headIsDigit ((splitChar '.' r).headD "") = false → v = "") := by
  intro r v h
  simp only [version_of_release, Option.map_eq_some'] at h
  obtain ⟨ps, hps, rfl⟩ := h
  have he := pyVersionParts_eq _ _ hps
  refine ⟨by rw [he], takeWhile_initSeg _ _, ?_, ?_⟩
  · rintro ⟨p, hpmem, hpfalse⟩
    refine ⟨takeWhile_initSeg _ _, fun heq => ?_⟩
    have hmem : p ∈ (splitChar '.' r).takeWhile headIsDigit := by
      rw [heq]; exact hpmem
    have := mem_takeWhile_digit headIsDigit (splitChar '.' r) p hmem
    rw [hpfalse] at this
    exact Bool.false_ne_true this
  · intro hhead
    rcases hsegs : splitChar '.' r with _ | ⟨p0, rest⟩
    · simp [he, hsegs, joinDots]
    · rw [hsegs] at hhead
      simp only [List.headD_cons] at hhead
      simp [he, hsegs, List.takeWhile_cons, hhead, joinDots]

/-- Witness for the amended C4 at the release "1.a". -/
theorem version_initseg_of_release_witness :
    "1" = joinDots ((splitChar '.' "1.a").takeWhile headIsDigit) ∧
    initSeg ((splitChar '.' "1.a").takeWhile headIsDigit) (splitChar '.' "1.a") ∧
    ((∃ p ∈ splitChar '.' "1.a", headIsDigit p = false) →
      strictInitSeg ((splitChar '.' "1.a").takeWhile headIsDigit)
        (splitChar '.' "1.a")) ∧
    (headIsDigit ((splitChar '.' "1.a").headD "") = false → "1" = "") :=
  version_initseg_of_release "1.a" "1" (by decide)

/-- C10 counterexample: the release "a." contains an empty segment, yet the
version computation returns a value (the loop breaks at "a" before
indexing the empty segment). -/
theorem version_empty_segment_cex :
    version_of_release "a." = some "" ∧ "" ∈ splitChar '.' "a." := by
  constructor
  · decide
  · decide

/-- C10 (amended): the version computation returns a value for every
release string whose dot-segments are all non-empty; it fails exactly when
the first segment not starting with a digit, in scan order, is the empty
segment — in particular on the empty release string, whose split yields
one empty segment. -/
theorem version_totality_characterisation :
    (∀ r, (∀ p ∈ splitChar '.' r, p ≠ "") →
      (version_of_release r).isSome = true) ∧
    (∀ r, version_of_release r = none ↔
      ((splitChar '.' r).dropWhile headIsDigit).head? = some "") ∧
    version_of_release "" = none ∧ splitChar '.' "" = [""] := by
  have hiff : ∀ r, version_of_release r = none ↔
      ((splitChar '.' r).dropWhile headIsDigit).head? = some "" := by
    intro r
    rw [version_of_release, Option.map_eq_none']
    exact pyVersionParts_none_iff _
  refine ⟨?_, hiff, by decide, by decide⟩
  intro r hne
  rw [Option.isSome_iff_ne_none]
  intro hnone
  have := (hiff r).mp hnone
  exact hne "" (head_dropWhile_mem _ _ _ this) rfl

/-- Witness for the amended C10 at the release "1.2". -/
theorem version_totality_characterisation_witness :
    (version_of_release "1.2").isSome = true :=
  version_totality_characterisation.1 "1.2" (by decide)

/-! ## Memoization lemmas -/

lemma oslo_release_memo {w : World} {s : Oslo.VIState} {r : String}
    {s' : Oslo.VIState} (h : Oslo.release w s = (some r, s')) :
    s'._release = some r := by
  unfold Oslo.release at h
  split at h
  · rename_i r0 heq
    simp only [Prod.mk.injEq, Option.some_inj] at h
    obtain ⟨h1, rfl⟩ := h
    rw [heq, h1]
  · split at h
    · rename_i r1 s1 heq2
      simp only [Prod.mk.injEq, Option.some_inj] at h
      obtain ⟨h1, rfl⟩ := h
      simp [← h1]
    · simp at h

lemma oslo_release_second {w₂ : World} {s' : Oslo.VIState} {r : String}
    (h : s'._release = some r) : Oslo.release w₂ s' = (some r, s') := by
  unfold Oslo.release
  rw [h]

lemma oslo_version_memo {w : World} {s : Oslo.VIState} {v : String}
    {s' : Oslo.VIState} (h : Oslo.version w s = (some v, s')) :
    s'._version = some v := by
  unfold Oslo.version at h
  split at h
  · rename_i v0 heq
    simp only [Prod.mk.injEq, Option.some_inj] at h
    obtain ⟨h1, rfl⟩ := h
    rw [heq, h1]
  · split at h
    · simp at h
    · split at h
      · simp at h
      · rename_i ps heq3
        simp only [Prod.mk.injEq, Option.some_inj] at h
        obtain ⟨h1, rfl⟩ := h
        simp [← h1]

lemma oslo_version_second {w₂ : World} {s' : Oslo.VIState} {v : String}
    (h : s'._version = some v) : Oslo.version w₂ s' = (some v, s') := by
  unfold Oslo.version
  rw [h]

lemma oslo_provider_memo {w : World} {s : Oslo.VIState} {p : Provider}
    {s' : Oslo.VIState} (h : Oslo._get_provider w s = (some p, s')) :
    s'._provider = some p := by
  unfold Oslo._get_provider at h
  split at h
  · rename_i p0 heq
    simp only [Prod.mk.injEq, Option.some_inj] at h
    obtain ⟨h1, rfl⟩ := h
    rw [heq, h1]
  · split at h
    · rename_i p1 heq2
      simp only [Prod.mk.injEq, Option.some_inj] at h
      obtain ⟨h1, rfl⟩ := h
      simp [← h1]
    · simp at h

lemma oslo_provider_second {w₂ : World} {s' : Oslo.VIState} {p : Provider}
    (h : s'._provider = some p) : Oslo._get_provider w₂ s' = (some p, s') := by
  unfold Oslo._get_provider
  rw [h]

lemma oslo_lvs_loaded {w : World} {s : Oslo.VIState} {u : Unit}
    {s' : Oslo.VIState} (h : Oslo._load_vendor_strings w s = (some u, s')) :
    s'._loaded = true := by
  unfold Oslo._load_vendor_strings at h
  split at h
  · rename_i heq
    simp only [Prod.mk.injEq] at h
    obtain ⟨h1, rfl⟩ := h
    exact heq
  · dsimp only [] at h
    split at h
    · simp at h
    · split at h
      · simp at h
      · rename_i s3 heq2
        simp only [Prod.mk.injEq] at h
        obtain ⟨h1, rfl⟩ := h
        simp

lemma oslo_lvs_second {w₂ : World} {s' : Oslo.VIState}
    (h : s'._loaded = true) :
    Oslo._load_vendor_strings w₂ s' = (some (), s') := by
  unfold Oslo._load_vendor_strings
  rw [h]
  simp

lemma oslo_vendor_self {w : World} {s : Oslo.VIState} {v : Option String}
    {s' : Oslo.VIState} (h : Oslo.vendor w s = (some v, s')) :
    s'._loaded = true ∧ v = s'._vendor := by
  unfold Oslo.vendor at h
  split at h
  · simp at h
  · rename_i u s1 heq
    simp only [Prod.mk.injEq, Option.some_inj] at h
    obtain ⟨h1, rfl⟩ := h
    exact ⟨oslo_lvs_loaded heq, h1.symm⟩

lemma oslo_product_self {w : World} {s : Oslo.VIState} {v : Option String}
    {s' : Oslo.VIState} (h : Oslo.product w s = (some v, s')) :
    s'._loaded = true ∧ v = s'._product := by
  unfold Oslo.product at h
  split at h
  · simp at h
  · rename_i u s1 heq
    simp only [Prod.mk.injEq, Option.some_inj] at h
    obtain ⟨h1, rfl⟩ := h
    exact ⟨oslo_lvs_loaded heq, h1.symm⟩

lemma oslo_suffix_self {w : World} {s : Oslo.VIState} {v : Option String}
    {s' : Oslo.VIState} (h : Oslo.suffix w s = (some v, s')) :
    s'._loaded = true ∧ v = s'._suffix := by
  unfold Oslo.suffix at h
  split at h
  · simp at h
  · rename_i u s1 heq
    simp only [Prod.mk.injEq, Option.some_inj] at h
    obtain ⟨h1, rfl⟩ := h
    exact ⟨oslo_lvs_loaded heq, h1.symm⟩

lemma pbr_release_memo {w : World} {s : Pbr.VIState} {r : String}
    {s' : Pbr.VIState} (h : Pbr.release_string w s = (some r, s')) :
    s'.release = some r := by
  unfold Pbr.release_string at h
  split at h
  · rename_i r0 heq
    simp only [Prod.mk.injEq, Option.some_inj] at h
    obtain ⟨h1, rfl⟩ := h
    rw [heq, h1]
  · split at h
    · rename_i r1 s1 heq2
      simp only [Prod.mk.injEq, Option.some_inj] at h
      obtain ⟨h1, rfl⟩ := h
      simp [← h1]
    · simp at h

lemma pbr_release_second {w₂ : World} {s' : Pbr.VIState} {r : String}
    (h : s'.release = some r) : Pbr.release_string w₂ s' = (some r, s') := by
  unfold Pbr.release_string
  rw [h]

lemma pbr_version_memo {w : World} {s : Pbr.VIState} {v : String}
    {s' : Pbr.VIState} (h : Pbr.version_string w s = (some v, s')) :
    s'.version = some v := by
  unfold Pbr.version_string at h
  split at h
  · rename_i v0 heq
    simp only [Prod.mk.injEq, Option.some_inj] at h
    obtain ⟨h1, rfl⟩ := h
    rw [heq, h1]
  · split at h
    · simp at h
    · split at h
      · simp at h
      · rename_i ps heq3
        simp only [Prod.mk.injEq, Option.some_inj] at h
        obtain ⟨h1, rfl⟩ := h
        simp [← h1]

lemma pbr_version_second {w₂ : World} {s' : Pbr.VIState} {v : String}
    (h : s'.version = some v) : Pbr.version_string w₂ s' = (some v, s') := by
  unfold Pbr.version_string
  rw [h]

lemma pbr_provider_memo {w : World} {s : Pbr.VIState} {p : Provider}
    {s' : Pbr.VIState} (h : Pbr._get_provider w s = (some p, s')) :
    s'._provider = some p := by
  unfold Pbr._get_provider at h
  split at h
  · rename_i p0 heq
    simp only [Prod.mk.injEq, Option.some_inj] at h
    obtain ⟨h1, rfl⟩ := h
    rw [heq, h1]
  · split at h
    · rename_i p1 heq2
      simp only [Prod.mk.injEq, Option.some_inj] at h
      obtain ⟨h1, rfl⟩ := h
      simp [← h1]
    · simp at h

lemma pbr_provider_second {w₂ : World} {s' : Pbr.VIState} {p : Provider}
    (h : s'._provider = some p) : Pbr._get_provider w₂ s' = (some p, s') := by
  unfold Pbr._get_provider
  rw [h]

lemma pbr_lvs_loaded {w : World} {s : Pbr.VIState} {u : Unit}
    {s' : Pbr.VIState} (h : Pbr._load_vendor_strings w s = (some u, s')) :
    s'._loaded = true := by
  unfold Pbr._load_vendor_strings at h
  split at h
  · rename_i heq
    simp only [Prod.mk.injEq] at h
    obtain ⟨h1, rfl⟩ := h
    exact heq
  · dsimp only [] at h
    split at h
    · simp at h
    · split at h
      · simp at h
      · rename_i s3 heq2
        simp only [Prod.mk.injEq] at h
        obtain ⟨h1, rfl⟩ := h
        simp

lemma pbr_lvs_second {w₂ : World} {s' : Pbr.VIState}
    (h : s'._loaded = true) :
    Pbr._load_vendor_strings w₂ s' = (some (), s') := by
  unfold Pbr._load_vendor_strings
  rw [h]
  simp

lemma pbr_vendor_self {w : World} {s : Pbr.VIState} {v : Option String}
    {s' : Pbr.VIState} (h : Pbr.vendor_string w s = (some v, s')) :
    s'._loaded = true ∧ v = s'.vendor := by
  unfold Pbr.vendor_string at h
  split at h
  · simp at h
  · rename_i u s1 heq
    simp only [Prod.mk.injEq, Option.some_inj] at h
    obtain ⟨h1, rfl⟩ := h
    exact ⟨pbr_lvs_loaded heq, h1.symm⟩

lemma pbr_product_self {w : World} {s : Pbr.VIState} {v : Option String}
    {s' : Pbr.VIState} (h : Pbr.product_string w s = (some v, s')) :
    s'._loaded = true ∧ v = s'.product := by
  unfold Pbr.product_string at h
  split at h
  · simp at h
  · rename_i u s1 heq
    simp only [Prod.mk.injEq, Option.some_inj] at h
    obtain ⟨h1, rfl⟩ := h
    exact ⟨pbr_lvs_loaded heq, h1.symm⟩

lemma pbr_suffix_self {w : World} {s : Pbr.VIState} {v : Option String}
    {s' : Pbr.VIState} (h : Pbr.suffix_string w s = (some v, s')) :
    s'._loaded = true ∧ v = s'.suffix := by
  unfold Pbr.suffix_string at h
  split at h
  · simp at h
  · rename_i u s1 heq
    simp only [Prod.mk.injEq, Option.some_inj] at h
    obtain ⟨h1, rfl⟩ := h
    exact ⟨pbr_lvs_loaded heq, h1.symm⟩

lemma pbr_cached_memo {w : World} {pre v : String} {s s' : Pbr.VIState}
    (h : Pbr.cached_version_string w pre s = (some v, s')) :
    s'._cached_version = some v := by
  unfold Pbr.cached_version_string at h
  split at h
  · split at h
    · simp at h
    · rename_i v1 s1 heq
      simp only [Prod.mk.injEq, Option.some_inj] at h
      obtain ⟨h1, rfl⟩ := h
      simp [← h1]
  · rename_i hc
    simp only [Prod.mk.injEq, Option.some_inj] at h
    obtain ⟨h1, rfl⟩ := h
    rcases hcv : s._cached_version with _ | cv
    · rw [hcv] at hc
      simp at hc
    · rw [hcv] at h1
      simp only [Option.getD_some] at h1
      rw [h1]

lemma pbr_cached_second {w₂ : World} {pre₂ v : String} {s' : Pbr.VIState}
    (h : s'._cached_version = some v) (hv : v ≠ "") :
    Pbr.cached_version_string w₂ pre₂ s' = (some v, s') := by
  unfold Pbr.cached_version_string
  rw [h]
  simp [hv]

/-! ## Claims about memoization -/

/-- C2: in both variants, each of release, version, the
vendor/product/suffix group, and the provider is resolved at most once per
instance: after an accessor call that returns a value, any later call of
the same accessor returns the same value and the same state, and does so
for an arbitrary world — i.e. without consulting the metadata provider or
the filesystem again, even if every underlying file has changed. -/
theorem accessors_memoize_after_first_success :
    (∀ w s r s', Oslo.release w s = (some r, s') →
      ∀ w₂, Oslo.release w₂ s' = (some r, s')) ∧
    (∀ w s v s', Oslo.version w s = (some v, s') →
      ∀ w₂, Oslo.version w₂ s' = (some v, s')) ∧
    (∀ w s v s', Oslo.vendor w s = (some v, s') →
      ∀ w₂, Oslo.vendor w₂ s' = (some v, s')) ∧
    (∀ w s v s', Oslo.product w s = (some v, s') →
      ∀ w₂, Oslo.product w₂ s' = (some v, s')) ∧
    (∀ w s v s', Oslo.suffix w s = (some v, s') →
      ∀ w₂, Oslo.suffix w₂ s' = (some v, s')) ∧
    (∀ w s p s', Oslo._get_provider w s = (some p, s') →
      ∀ w₂, Oslo._get_provider w₂ s' = (some p, s')) ∧
    (∀ w s r s', Pbr.release_string w s = (some r, s') →
      ∀ w₂, Pbr.release_string w₂ s' = (some r, s')) ∧
    (∀ w s v s', Pbr.version_string w s = (some v, s') →
      ∀ w₂, Pbr.version_string w₂ s' = (some v, s')) ∧
    (∀ w s v s', Pbr.vendor_string w s = (some v, s') →
      ∀ w₂, Pbr.vendor_string w₂ s' = (some v, s')) ∧
    (∀ w s v s', Pbr.product_string w s = (some v, s') →
      ∀ w₂, Pbr.product_string w₂ s' = (some v, s')) ∧
    (∀ w s v s', Pbr.suffix_string w s = (some v, s') →
      ∀ w₂, Pbr.suffix_string w₂ s' = (some v, s')) ∧
    (∀ w s p s', Pbr._get_provider w s = (some p, s') →
      ∀ w₂, Pbr._get_provider w₂ s' = (some p, s')) := by
  refine ⟨?_, ?_, ?_, ?_, ?_, ?_, ?_, ?_, ?_, ?_, ?_, ?_⟩
  · intro w s r s' h w₂
    exact oslo_release_second (oslo_release_memo h)
  · intro w s v s' h w₂
    exact oslo_version_second (oslo_version_memo h)
  · intro w s v s' h w₂
    obtain ⟨hld, hv⟩ := oslo_vendor_self h
    unfold Oslo.vendor
    rw [oslo_lvs_second hld, hv]
  · intro w s v s' h w₂
    obtain ⟨hld, hv⟩ := oslo_product_self h
    unfold Oslo.product
    rw [oslo_lvs_second hld, hv]
  · intro w s v s' h w₂
    obtain ⟨hld, hv⟩ := oslo_suffix_self h
    unfold Oslo.suffix
    rw [oslo_lvs_second hld, hv]
  · intro w s p s' h w₂
    exact oslo_provider_second (oslo_provider_memo h)
  · intro w s r s' h w₂
    exact pbr_release_second (pbr_release_memo h)
  · intro w s v s' h w₂
    exact pbr_version_second (pbr_version_memo h)
  · intro w s v s' h w₂
    obtain ⟨hld, hv⟩ := pbr_vendor_self h
    unfold Pbr.vendor_string
    rw [pbr_lvs_second hld, hv]
  · intro w s v s' h w₂
    obtain ⟨hld, hv⟩ := pbr_product_self h
    unfold Pbr.product_string
    rw [pbr_lvs_second hld, hv]
  · intro w s v s' h w₂
    obtain ⟨hld, hv⟩ := pbr_suffix_self h
    unfold Pbr.suffix_string
    rw [pbr_lvs_second hld, hv]
  · intro w s p s' h w₂
    exact pbr_provider_second (pbr_provider_memo h)

/-- Witness for C2: a concrete first `release` access under `W0`, followed
by a second access under the changed world `W2`, reproduces the cached
value and touches nothing. -/
theorem accessors_memoize_after_first_success_witness :
    Oslo.release W2 S1 = (some "1.2.3", S1) :=
  accessors_memoize_after_first_success.1 W0 (Oslo.mkVersionInfo "pkg")
    "1.2.3" S1 (by decide) W2

/-- C3 counterexample: when the release is "x" the computed version is "",
so the first `cached_version_string("")` call stores the falsy rendering
"", and a second call with the different argument "v" returns "v" — not
the same string both times. -/
theorem cached_version_string_cex :
    (Pbr.cached_version_string W3 "" (Pbr.mkVersionInfo "p")).1 = some "" ∧
    (Pbr.cached_version_string W3 "v"
        (Pbr.cached_version_string W3 "" (Pbr.mkVersionInfo "p")).2).1
      = some "v" ∧
    (some "" : Option String) ≠ some "v" := by
  refine ⟨by decide, by decide, by decide⟩

/-- C3 (amended): whenever a `cached_version_string` call returns a
non-empty string, every later call returns exactly that string and leaves
the state unchanged, regardless of the later call's prefix argument and of
any change to the underlying world; when the first rendering is the empty
string the truthiness check `if not self._cached_version` treats the cache
as unset and the later call recomputes with its own prefix. -/
theorem cached_version_string_memoizes_first_nonempty :
    ∀ w p₁ v s s', Pbr.cached_version_string w p₁ s = (some v, s') →
      v ≠ "" →
      ∀ w₂ p₂, Pbr.cached_version_string w₂ p₂ s' = (some v, s') := by
  intro w p₁ v s s' h hv w₂ p₂
  exact pbr_cached_second (pbr_cached_memo h) hv

/-- Witness for the amended C3. -/
theorem cached_version_string_memoizes_first_nonempty_witness :
    Pbr.cached_version_string W2 "u" S3 = (some "v1.2.3", S3) :=
  cached_version_string_memoizes_first_nonempty W0 "v" "v1.2.3"
    (Pbr.mkVersionInfo "p") S3 (by decide) (by decide) W2 "u"

/-! ## Path lemmas -/

lemma data_slash : ("/" : String).data = ['/'] := rfl

lemma str_append_assoc (a b c : String) : a ++ b ++ c = a ++ (b ++ c) := by
  apply str_ext
  simp [str_data_append]

lemma isAbs_append {a : String} (b : String) (h : isAbs a = true) :
    isAbs (a ++ b) = true := by
  rcases hd : a.data with _ | ⟨c, cs⟩
  · rw [isAbs, hd] at h
    simp at h
  · have hdd : (a ++ b).data = c :: (cs ++ b.data) := by
      rw [str_data_append, hd]
      simp
    rw [isAbs, hdd]
    rw [isAbs, hd] at h
    exact h

lemma ne_empty_of_isAbs {a : String} (h : isAbs a = true) : a ≠ "" := by
  intro he
  rw [he] at h
  exact absurd h (by decide)

lemma expanduser_tilde {home : String} (h1 : rstripSlashes home = home)
    (h2 : home ≠ "") : expanduser home "~" = home := by
  unfold expanduser
  rw [show ("~" : String).data = ['~'] from rfl]
  simp [h1, h2]

lemma data_tilde_slash (q : String) :
    ("~/" ++ q).data = '~' :: '/' :: q.data := by
  rw [str_data_append]
  simp [show ("~/" : String).data = ['~', '/'] from rfl]

lemma expanduser_tildeSlash {home : String} (q : String)
    (h1 : rstripSlashes home = home) :
    expanduser home ("~/" ++ q) = (home ++ "/") ++ q := by
  unfold expanduser
  rw [data_tilde_slash]
  have hmk : String.mk ('/' :: q.data) = "/" ++ q := by
    apply str_ext
    rw [str_data_append, data_slash]
    rfl
  have hne : home ++ ("/" ++ q) ≠ "" := by
    rw [str_ne_empty_iff, str_data_append, str_data_append, data_slash]
    intro hc
    rcases List.append_eq_nil.mp hc with ⟨-, hc2⟩
    simp at hc2
  simp only [hmk, h1]
  rw [if_neg hne, str_append_assoc]
  simp

lemma isAbs_dot (p : String) : isAbs ("." ++ p) = false := by
  have hdd : ("." ++ p).data = '.' :: p.data := by
    rw [str_data_append]
    simp [show ("." : String).data = ['.'] from rfl]
  rw [isAbs, hdd]
  rfl

lemma append_splice (h p : String) :
    (h ++ "/") ++ ("." ++ p) = h ++ "/." ++ p := by
  apply str_ext
  simp [str_data_append, data_slash,
    show ("." : String).data = ['.'] from rfl,
    show ("/." : String).data = ['/', '.'] from rfl]

lemma pathJoin_etc {p : String} (hpa : isAbs p = false) :
    pathJoin "/etc" p = "/etc/" ++ p := by
  unfold pathJoin
  rw [hpa]
  rw [if_neg (by decide : ¬ (false = true)),
    if_neg (by decide : ¬ (("/etc" : String) = "" ∨ lastIsSlash "/etc" = true))]
  rw [show ("/etc" : String) ++ "/" = "/etc/" by decide]

lemma expand_path_home {w : World} (hA : isAbs w.home = true)
    (hR : rstripSlashes w.home = w.home) :
    Oslo._expand_path w "~" = w.home := by
  unfold Oslo._expand_path abspath
  rw [expanduser_tilde hR (ne_empty_of_isAbs hA), hA]
  simp

lemma expand_path_dot_project {w : World} (p : String)
    (hA : isAbs w.home = true) (hR : rstripSlashes w.home = w.home) :
    Oslo._expand_path w (pathJoin "~" ("." ++ p)) = w.home ++ "/." ++ p := by
  have h2 := ne_empty_of_isAbs hA
  have j1 : pathJoin "~" ("." ++ p) = "~/" ++ ("." ++ p) := by
    unfold pathJoin
    rw [isAbs_dot]
    rw [if_neg (by decide : ¬ (false = true)),
      if_neg (by decide : ¬ (("~" : String) = "" ∨ lastIsSlash "~" = true))]
    rw [show ("~" : String) ++ "/" = "~/" by decide]
  unfold Oslo._expand_path abspath
  rw [j1, expanduser_tildeSlash ("." ++ p) hR]
  rw [isAbs_append _ (isAbs_append "/" hA)]
  simp [append_splice]

lemma config_dirs_eval {w : World} (p : String) (hA : isAbs w.home = true)
    (hR : rstripSlashes w.home = w.home) (hp : p ≠ "") :
    Oslo._get_config_dirs w (some p) =
      [w.home ++ "/." ++ p, w.home, "/etc/" ++ p, "/etc"] ∨
    isAbs p = true := by
  by_cases hpa : isAbs p = true
  · exact Or.inr hpa
  · left
    have ht : truthyStr (some p) = true := by simp [truthyStr, hp]
    unfold Oslo._get_config_dirs
    rw [ht]
    simp only [if_true, Option.getD_some]
    rw [expand_path_dot_project p hA hR, expand_path_home hA hR,
      pathJoin_etc (by simpa using hpa)]

lemma config_dirs_eval_none {w : World} (hA : isAbs w.home = true)
    (hR : rstripSlashes w.home = w.home) :
    Oslo._get_config_dirs w none = [w.home, "/etc"] := by
  unfold Oslo._get_config_dirs
  rw [show truthyStr none = false from rfl]
  simp only [Bool.false_eq_true, if_false]
  rw [expand_path_home hA hR]

/-! ## Claims about config-file discovery -/

/-- C6: for every world whose home directory is an absolute path without a
trailing slash and every non-empty relative project name, the directory
list is exactly `~/.{project}`, `~`, `/etc/{project}`, `/etc` in that
order with `~` expanded to the current home, and exactly `~`, `/etc` when
no project is given — in both variants. -/
theorem config_dirs_order :
    ∀ (w : World) (p : String), isAbs w.home = true →
      rstripSlashes w.home = w.home → p ≠ "" → isAbs p = false →
      Oslo._get_config_dirs w (some p) =
        [w.home ++ "/." ++ p, w.home, "/etc/" ++ p, "/etc"] ∧
      Pbr._get_config_dirs w (some p) =
        [w.home ++ "/." ++ p, w.home, "/etc/" ++ p, "/etc"] ∧
      Oslo._get_config_dirs w none = [w.home, "/etc"] ∧
      Pbr._get_config_dirs w none = [w.home, "/etc"] := by
  intro w p hA hR hp hpa
  have hoslo : Oslo._get_config_dirs w (some p) =
      [w.home ++ "/." ++ p, w.home, "/etc/" ++ p, "/etc"] := by
    rcases config_dirs_eval p hA hR hp with h | h
    · exact h
    · rw [hpa] at h
      simp at h
  have hnone := config_dirs_eval_none hA hR
  have heq : Pbr._get_config_dirs = Oslo._get_config_dirs := rfl
  exact ⟨hoslo, by rw [heq]; exact hoslo, hnone, by rw [heq]; exact hnone⟩

/-- Witness for C6 at home "/root" and project "blaa". -/
theorem config_dirs_order_witness :
    Oslo._get_config_dirs W0 (some "blaa") =
      [W0.home ++ "/." ++ "blaa", W0.home, "/etc/" ++ "blaa", "/etc"] ∧
    Pbr._get_config_dirs W0 (some "blaa") =
      [W0.home ++ "/." ++ "blaa", W0.home, "/etc/" ++ "blaa", "/etc"] ∧
    Oslo._get_config_dirs W0 none = [W0.home, "/etc"] ∧
    Pbr._get_config_dirs W0 none = [W0.home, "/etc"] :=
  config_dirs_order W0 "blaa" (by decide) (by decide) (by decide) (by decide)

lemma search_dirs_eq (w : World) (dirs : List String) (b e : String) :
    Oslo._search_dirs w dirs b e = Pbr._search_dirs w dirs b e := by
  induction dirs with
  | nil => rfl
  | cons d rest ih =>
    unfold Oslo._search_dirs Pbr._search_dirs
    dsimp only []
    rw [ih]

/-- C5: `_find_config_files` searches the project basename and the program
basename independently over the same directory list, returning the
project-named hit (if any) followed by the program-named hit (if any); in
particular, under an existence predicate reporting exactly
/root/.blaa/blaa.conf and /etc/foo.conf with argv[0] = "foo", it returns
those two paths in that order even though the program-named file sits at
higher precedence; the result always has at most two entries. -/
theorem find_config_files_independent_searches :
    (∀ (w : World) (proj prog : Option String) (ext : String),
      truthyStr proj = true →
      Oslo._find_config_files w proj prog ext =
        (Oslo._search_dirs w (Oslo._get_config_dirs w proj)
          (proj.getD "") ext).toList ++
        (Oslo._search_dirs w (Oslo._get_config_dirs w proj)
          (match prog with | none => basename w.argv0 | some q => q)
          ext).toList) ∧
    (∀ (w : World) (proj prog : Option String) (ext : String),
      (Oslo._find_config_files w proj prog ext).length ≤ 2) ∧
    Oslo._find_config_files W5 (some "blaa") none ".conf" =
      ["/root/.blaa/blaa.conf", "/etc/foo.conf"] ∧
    Pbr._find_config_files W5 (some "blaa") none ".conf" =
      ["/root/.blaa/blaa.conf", "/etc/foo.conf"] := by
  refine ⟨?_, ?_, by decide, by decide⟩
  · intro w proj prog ext h
    unfold Oslo._find_config_files
    dsimp only []
    rw [h]
    simp only [if_true]
    rcases Oslo._search_dirs w (Oslo._get_config_dirs w proj)
        (proj.getD "") ext with _ | x <;>
      rcases Oslo._search_dirs w (Oslo._get_config_dirs w proj)
        (match prog with | none => basename w.argv0 | some q => q) ext with
        _ | y <;>
      simp [List.filterMap]
  · intro w proj prog ext
    unfold Oslo._find_config_files
    dsimp only []
    refine le_trans (List.length_filterMap_le _ _) ?_
    by_cases h : truthyStr proj = true <;> simp [h]

/-- Witness for C5, instantiating the general decomposition at `W5`. -/
theorem find_config_files_independent_searches_witness :
    Oslo._find_config_files W5 (some "blaa") none ".conf" =
      (Oslo._search_dirs W5 (Oslo._get_config_dirs W5 (some "blaa"))
        ((some "blaa").getD "") ".conf").toList ++
      (Oslo._search_dirs W5 (Oslo._get_config_dirs W5 (some "blaa"))
        (match (none : Option String) with
         | none => basename W5.argv0
         | some q => q) ".conf").toList :=
  find_config_files_independent_searches.1 W5 (some "blaa") none ".conf"
    (by decide)

/-- C9: the config-file discovery layer of the two variants is
extensionally equal — `_expand_path`, `_get_config_dirs`, `_search_dirs`
and `_find_config_files` agree on every input (including every
filesystem-existence predicate, packed in the world). -/
theorem discovery_layer_variants_equal :
    ∀ (w : World) (p : String) (dirs : List String) (b e : String)
      (proj prog : Option String) (ext : String),
      Oslo._expand_path w p = Pbr._expand_path w p ∧
      Oslo._get_config_dirs w proj = Pbr._get_config_dirs w proj ∧
      Oslo._search_dirs w dirs b e = Pbr._search_dirs w dirs b e ∧
      Oslo._find_config_files w proj prog ext =
        Pbr._find_config_files w proj prog ext := by
  intro w p dirs b e proj prog ext
  refine ⟨rfl, rfl, search_dirs_eq w dirs b e, ?_⟩
  unfold Oslo._find_config_files Pbr._find_config_files
  dsimp only []
  rw [show Pbr._get_config_dirs = Oslo._get_config_dirs from rfl,
    search_dirs_eq, search_dirs_eq]

/-- C7 counterexample: in the claim's own scenario (package "myfoo",
override file [myfoo] with vendor=bigco, product=product123,
package=mysuffix), neither variant returns "bigco" under `WC7`: the pbr
variant raises TypeError at the first `cfg.get(section, key, default)`
call of `_load_from_cfg_file` (third positional argument), and the oslo
variant, having no provider, raises the same way inside
`_load_from_setup_cfg` before the override file is even read. -/
theorem override_file_pbr_raises_cex :
    (Pbr.vendor_string WC7 (Pbr.mkVersionInfo "myfoo")).1 = none ∧
    (Oslo.vendor WC7 (Oslo.mkVersionInfo "myfoo")).1 = none :=
  ⟨by decide, by decide⟩

/-- C7 (amended): in the oslo variant, override-file resolution reads the
section named after the package with a leading "python-" stripped and
maps the keys vendor, product and package onto the vendor, product and
suffix fields; in the concrete scenario — package "myfoo", metadata
loading succeeding benignly through a present provider (the stub shape of
the repository's own test), an override file whose section [myfoo] holds
vendor=bigco, product=product123, package=mysuffix — the oslo accessors
report "bigco", "product123" and "mysuffix".  The pbr variant never
performs this mapping: its `_load_from_cfg_file` raises TypeError on
every call, leaving the state unchanged. -/
theorem override_file_section_and_keys :
    (∀ w files s u s', Oslo._load_from_cfg_file w files s = (some u, s') →
      s'._vendor = w.cfgGet files (secName s.package) "vendor" ∧
      s'._product = w.cfgGet files (secName s.package) "product" ∧
      s'._suffix = w.cfgGet files (secName s.package) "package") ∧
    ((Oslo.vendor WC7p (Oslo.mkVersionInfo "myfoo")).1
       = some (some "bigco") ∧
     (Oslo.product WC7p (Oslo.mkVersionInfo "myfoo")).1
       = some (some "product123") ∧
     (Oslo.suffix WC7p (Oslo.mkVersionInfo "myfoo")).1
       = some (some "mysuffix")) ∧
    (∀ w files s, Pbr._load_from_cfg_file w files s = (none, s)) := by
  refine ⟨?_, ⟨by decide, by decide, by decide⟩, fun w files s => rfl⟩
  intro w files s u s' h
  unfold Oslo._load_from_cfg_file at h
  dsimp only [] at h
  split at h
  · simp at h
  · rename_i v hv
    split at h
    · simp at h
    · rename_i pr hpr
      split at h
      · simp at h
      · rename_i sx hsx
        simp only [Prod.mk.injEq] at h
        obtain ⟨-, rfl⟩ := h
        refine ⟨by simp [secName, hv], by simp [secName, hpr],
          by simp [secName, hsx]⟩

/-- Witness for C7, applying the oslo conjunct to the concrete override
file of `WC7`. -/
theorem override_file_section_and_keys_witness :
    SC7._vendor
      = WC7.cfgGet ["/etc/release.conf"] (secName "myfoo") "vendor" ∧
    SC7._product
      = WC7.cfgGet ["/etc/release.conf"] (secName "myfoo") "product" ∧
    SC7._suffix
      = WC7.cfgGet ["/etc/release.conf"] (secName "myfoo") "package" :=
  override_file_section_and_keys.1 WC7 ["/etc/release.conf"]
    (Oslo.mkVersionInfo "myfoo") () SC7 (by decide)

/-- C8: the intended missing-key fallback never executes.  Each
`cfg.get(section, key, self.field)` call in pbr's `_load_from_cfg_file`
passes a third positional argument, which `RawConfigParser.get` rejects,
so the method raises TypeError unconditionally; with an override file
whose [myfoo] section holds only product=product123 (`WC8`), the
vendor/product/suffix resolution aborts with an exception — no accessor
returns a value and the loaded flag stays unset — rather than completing
with the previously loaded values retained as the claim (and the code's
own evident intent) describes. -/
theorem override_missing_key_raises :
    (∀ w files s, Pbr._load_from_cfg_file w files s = (none, s)) ∧
    (Pbr.vendor_string WC8 (Pbr.mkVersionInfo "myfoo")).1 = none ∧
    (Pbr.product_string WC8 (Pbr.mkVersionInfo "myfoo")).1 = none ∧
    (Pbr.suffix_string WC8 (Pbr.mkVersionInfo "myfoo")).1 = none ∧
    ((Pbr.vendor_string WC8 (Pbr.mkVersionInfo "myfoo")).2)._loaded
      = false :=
  ⟨fun w files s => rfl, by decide, by decide, by decide, by decide⟩
